import Mathlib

/-!
Shallow embedding of the topology-reconstruction engine of the `usbtree`
repository (Go sources under `internal/usb` and `internal/models`),
together with theorems settling the frozen claims about its spec.

Go maps are modelled as association lists (iteration order is made
explicit); mutable `*models.USBDevice` pointers are identified by their
`"%d-%d"` bus-address key, and `AddChild` mutations are modelled as an
explicit list of (parentKey, childKey) edges accumulated in attachment
order.  Machine integers (`int`, `uint16`, `gousb.Class`/`Speed`) are
modelled as `Nat`; the values involved are non-negative throughout the
source.
-/

namespace Usbtree

/-! ## Generic string helpers (models of the Go `strings` functions used) -/

/-- Does `p` occur at the head of `cs`?  Model of a literal-prefix test on
character lists (`strings.HasPrefix` after `String.toList`). -/
def leadsWith : List Char → List Char → Bool
  | [], _ => true
  | _ :: _, [] => false
  | p :: ps, c :: cs => p = c && leadsWith ps cs

/-- Does `pat` occur as a contiguous substring of `cs`?  Model of
`strings.Contains` on character lists. -/
def hasSubL (pat : List Char) : List Char → Bool
  | [] => leadsWith pat []
  | c :: cs => leadsWith pat (c :: cs) || hasSubL pat cs

/-- Model of `strings.Contains s pat`. -/
def hasSub (s pat : String) : Bool := hasSubL pat.toList s.toList

/-- Model of `strings.TrimPrefix s pre`: drop `pre` from the front of `s` when it is
a prefix, otherwise return `s` unchanged. -/
def trimPre (s pre : String) : String :=
  if leadsWith pre.toList s.toList then
    String.mk (s.toList.drop pre.toList.length)
  else s

/-- Whitespace class of Go's `regexp` `\s` and `strings.TrimSpace`
restricted to ASCII: space, TAB, LF, VT, FF, CR. -/
def isGoSpace (c : Char) : Bool :=
  c = ' ' || c = '\t' || c = '\n' || c = Char.ofNat 11 || c = Char.ofNat 12 || c = '\r'

/-- Model of `strings.TrimSpace` on a character list. -/
def trimSpaceL (cs : List Char) : List Char :=
  ((cs.dropWhile isGoSpace).reverse.dropWhile isGoSpace).reverse

/-- Lowercase-hex digit class `[0-9a-f]` of the `lsusb` line regex. -/
def isLowerHex (c : Char) : Bool :=
  c.isDigit || ('a' ≤ c && c ≤ 'f')

/-- Hex digit class accepted by `strconv.ParseUint(_, 16, _)`:
both lowercase and uppercase letters. -/
def isGoHexDigit (c : Char) : Bool :=
  c.isDigit || ('a' ≤ c && c ≤ 'f') || ('A' ≤ c && c ≤ 'F')

/-- Numeric value of a single hex digit (0 for non-digits). -/
def hexDigitVal (c : Char) : Nat :=
  if c.isDigit then c.toNat - '0'.toNat
  else if 'a' ≤ c && c ≤ 'f' then c.toNat - 'a'.toNat + 10
  else if 'A' ≤ c && c ≤ 'F' then c.toNat - 'A'.toNat + 10
  else 0

/-- Value of a hex-digit string (most significant digit first). -/
def hexValL (cs : List Char) : Nat :=
  cs.foldl (fun acc c => 16 * acc + hexDigitVal c) 0

/-- Value of a decimal-digit string. -/
def digitsToNat (cs : List Char) : Nat :=
  cs.foldl (fun acc c => 10 * acc + (c.toNat - '0'.toNat)) 0

/-- Model of `fmt.Sprintf "%02x"` applied to a non-negative integer: lowercase hex
digits, zero-padded on the left to width two. -/
def sprintf02x (n : Nat) : String :=
  let ds := Nat.toDigits 16 n
  String.mk (if ds.length < 2 then List.replicate (2 - ds.length) '0' ++ ds else ds)

/-- ASCII lowering, the restriction of `strings.ToLower` used here. -/
def lowerStr (s : String) : String := String.mk (s.toList.map Char.toLower)

/-! ## The Record model (`internal/models/device.go`) -/

/-- Model of `models.USBDevice`, without the mutable `Children` slice: a flat
record.  Parent/child edges are carried separately as key pairs. -/
structure USBDevice where
  vendorID : Nat := 0
  productID : Nat := 0
  vendorName : String := ""
  productName : String := ""
  bus : Nat := 0
  port : Nat := 0
  address : Nat := 0
  serial : String := ""
  speed : String := ""
  Class : String := ""
  subClass : String := ""
  protocol : String := ""
  maxPower : String := ""
deriving Repr, DecidableEq

/-- The `"%d-%d"` bus-address key used by the Go device maps.  On `Nat`
pairs the formatted string is injective, so the pair itself is the key. -/
abbrev DKey := Nat × Nat

/-- Association-list lookup, modelling a Go map read. -/
def lookupKV {α : Type} (m : List (DKey × α)) (k : DKey) : Option α :=
  (m.find? (fun e => e.1 = k)).map (fun e => e.2)

/-- Association-list insert-or-overwrite, modelling a Go map write. -/
def insertKV {α : Type} (m : List (DKey × α)) (k : DKey) (v : α) : List (DKey × α) :=
  if (m.find? (fun e => e.1 = k)).isSome then
    m.map (fun e => if e.1 = k then (k, v) else e)
  else m ++ [(k, v)]

/-- Association-list lookup keyed by bus number (the `"bus-%d"` keys of
the `rootDevices` maps). -/
def lookupBus {α : Type} (m : List (Nat × α)) (b : Nat) : Option α :=
  (m.find? (fun e => e.1 = b)).map (fun e => e.2)

/-- Insert-or-overwrite keyed by bus number. -/
def insertBus {α : Type} (m : List (Nat × α)) (b : Nat) (v : α) : List (Nat × α) :=
  if (m.find? (fun e => e.1 = b)).isSome then
    m.map (fun e => if e.1 = b then (b, v) else e)
  else m ++ [(b, v)]

/-! ## Speed and class tables (`detector` sources) -/

/-- Model of `getSpeedString` on `gousb.Speed` codes
(`SpeedLow=1, SpeedFull=2, SpeedHigh=3, SpeedSuper=4`). -/
def getSpeedString (speed : Nat) : String :=
  if speed = 1 then "Low (1.5 Mbps)"
  else if speed = 2 then "Full (12 Mbps)"
  else if speed = 3 then "High (480 Mbps)"
  else if speed = 4 then "Super (5 Gbps)"
  else "Unknown"

/-- Model of `convertSystemProfilerSpeed`: substring dispatch over the
`system_profiler` `device_speed` field. -/
def convertSystemProfilerSpeed (speed : String) : String :=
  if hasSub speed "low_speed" then "Low (1.5 Mbps)"
  else if hasSub speed "full_speed" then "Full (12 Mbps)"
  else if hasSub speed "high_speed" then "High (480 Mbps)"
  else if hasSub speed "super_speed_5gbps" then "Super (5 Gbps)"
  else if hasSub speed "super_speed_10gbps" then "Super+ (10 Gbps)"
  else if hasSub speed "super_speed" then "Super (5 Gbps)"
  else if speed ≠ "" then speed
  else "Unknown"

/-- Model of `convertSpeed`: the `lsusb -t` speed-token table. -/
def convertSpeed (speed : String) : String :=
  if speed = "1.5M" then "Low (1.5 Mbps)"
  else if speed = "12M" then "Full (12 Mbps)"
  else if speed = "480M" then "High (480 Mbps)"
  else if speed = "5000M" then "Super (5 Gbps)"
  else if speed = "10000M" then "Super+ (10 Gbps)"
  else speed

/-- The `classNames` table of `getClassString`. -/
def classNames : List (Nat × String) :=
  [(0x00, "Device"), (0x01, "Audio"), (0x02, "Communications"), (0x03, "HID"),
   (0x05, "Physical"), (0x06, "Image"), (0x07, "Printer"), (0x08, "Mass Storage"),
   (0x09, "Hub"), (0x0a, "CDC Data"), (0x0b, "Smart Card"), (0x0d, "Content Security"),
   (0x0e, "Video"), (0x0f, "Personal Healthcare"), (0x10, "Audio/Video"),
   (0xdc, "Diagnostic"), (0xe0, "Wireless"), (0xef, "Miscellaneous"),
   (0xfe, "Application Specific"), (0xff, "Vendor Specific")]

/-- Model of `getClassString`: table lookup with a `"Class %02x"` fallback.
`gousb.Class` is a byte, so callers always pass values below 256. -/
def getClassString (class_ : Nat) : String :=
  match (classNames.find? (fun e => e.1 = class_)).map (fun e => e.2) with
  | some name => name
  | none => "Class " ++ sprintf02x class_

/-! ## `parseHexID` and the darwin controller root hub -/

/-- Semantic model of `strconv.ParseUint(s, 16, 16)`: `none` exactly when
the string is empty, contains a non-hex-digit rune, or denotes a value
that does not fit in 16 bits (Go reports `ErrSyntax` / `ErrRange` there,
and `parseHexID` maps any error to 0). -/
def parseUint16Hex (s : String) : Option Nat :=
  if s.toList.isEmpty then none
  else if s.toList.all isGoHexDigit then
    if hexValL s.toList < 65536 then some (hexValL s.toList) else none
  else none

/-- Model of `parseHexID`: total hex-ID parser; every failure collapses to 0. -/
def parseHexID (hexStr : String) : Nat :=
  if hexStr = "" then 0
  else
    match parseUint16Hex (trimPre hexStr "0x") with
    | some v => v
    | none => 0

/-- The fields of `spUSBController` read by `createRootHubFromController`. -/
structure SpUSBController where
  name : String := ""
  hostController : String := ""
  vendorID : String := ""
  productID : String := ""
  manufacturer : String := ""
  speed : String := ""
  currentAvailable : String := ""
deriving Repr, DecidableEq

/-- The `isUSB3` test inside `createRootHubFromController`. -/
def ctrlIsUSB3 (c : SpUSBController) : Bool :=
  hasSub c.name "31" || hasSub c.hostController "XHCI"

/-- Model of `createRootHubFromController` (darwin structured backend). -/
def createRootHubFromController (controller : SpUSBController) (busNumber : Nat) : USBDevice :=
  let vendorID0 := parseHexID controller.vendorID
  let productID0 := parseHexID controller.productID
  let isUSB3 := ctrlIsUSB3 controller
  let vendorID := if vendorID0 = 0 then 0x05ac else vendorID0
  let productID :=
    if productID0 = 0 then (if isUSB3 then 0x0003 else 0x0002) else productID0
  let hubName :=
    if controller.hostController ≠ "" then
      (if isUSB3 then "USB 3.1 Root Hub" else "USB 2.0 Root Hub")
    else controller.name
  let rootHub : USBDevice :=
    { vendorID := vendorID, productID := productID,
      vendorName := controller.manufacturer, productName := hubName,
      bus := busNumber, address := 1, port := 0,
      speed := convertSystemProfilerSpeed controller.speed,
      Class := "Hub", subClass := "00", protocol := "00" }
  let rootHub :=
    if rootHub.vendorName = "" then { rootHub with vendorName := "Apple Inc." } else rootHub
  let rootHub :=
    if rootHub.speed = "Unknown" || rootHub.speed = "" then
      { rootHub with speed := if isUSB3 then "Super (5 Gbps)" else "High (480 Mbps)" }
    else rootHub
  if controller.currentAvailable ≠ "" then
    { rootHub with maxPower := controller.currentAvailable }
  else rootHub

/-! ## Flat-list text backend (`parseLsusbOutput`)

The line regex is
`Bus (\d{3}) Device (\d{3}): ID ([0-9a-f]{4}):([0-9a-f]{4})\s*(.*)$`,
unanchored with leftmost-match semantics.  Its tail `\s*(.*)$` matches any
remainder of a newline-free line, so a line matches exactly when the
literal/count prefix part matches at some position; the matcher below
scans positions left to right. -/

/-- Consume an exact literal from the front of a character list. -/
def dropLit : List Char → List Char → Option (List Char)
  | [], cs => some cs
  | _ :: _, [] => none
  | l :: ls, c :: cs => if c = l then dropLit ls cs else none

/-- Consume exactly `n` characters satisfying `p` (the `{n}` counted
quantifier of the regexes). -/
def takeCount (p : Char → Bool) : Nat → List Char → Option (List Char × List Char)
  | 0, cs => some ([], cs)
  | _ + 1, [] => none
  | n + 1, c :: cs =>
    if p c then (takeCount p n cs).map (fun r => (c :: r.1, r.2)) else none

/-- Consume a maximal nonempty run of characters satisfying `p`
(the greedy `\d+` of the tree regexes). -/
def takeRun1 (p : Char → Bool) (cs : List Char) : Option (List Char × List Char) :=
  let run := cs.takeWhile p
  if run.isEmpty then none else some (run, cs.dropWhile p)

/-- Captures of the flat-list line regex: bus, address, vendor ID,
product ID, and the remainder after `\s*` (capture group 5 before
`TrimSpace`). -/
def matchFlatAt (cs : List Char) : Option (Nat × Nat × Nat × Nat × List Char) := do
  let cs ← dropLit "Bus ".toList cs
  let (d1, cs) ← takeCount Char.isDigit 3 cs
  let cs ← dropLit " Device ".toList cs
  let (d2, cs) ← takeCount Char.isDigit 3 cs
  let cs ← dropLit ": ID ".toList cs
  let (h1, cs) ← takeCount isLowerHex 4 cs
  let cs ← dropLit ":".toList cs
  let (h2, cs) ← takeCount isLowerHex 4 cs
  pure (digitsToNat d1, digitsToNat d2, hexValL h1, hexValL h2, cs.dropWhile isGoSpace)

/-- Leftmost match of the flat-list line regex. -/
def findFlat : List Char → Option (Nat × Nat × Nat × Nat × List Char)
  | [] => matchFlatAt []
  | c :: cs =>
    match matchFlatAt (c :: cs) with
    | some r => some r
    | none => findFlat cs

/-- Split a description into vendor and product name: the chain of
`strings.HasPrefix` special cases of `parseLsusbOutput` (eleven fixed
multi-word vendor prefixes, in source order), then the
`strings.SplitN(description, " ", 2)` fallback. -/
def splitDescription (description : String) : String × String :=
  if description = "" then ("", "")
  else if leadsWith "Linux Foundation".toList description.toList then
    ("Linux Foundation", trimPre description "Linux Foundation ")
  else if leadsWith "VIA Labs, Inc.".toList description.toList then
    ("VIA Labs, Inc.", trimPre description "VIA Labs, Inc. ")
  else if leadsWith "Terminus Technology Inc.".toList description.toList then
    ("Terminus Technology Inc.", trimPre description "Terminus Technology Inc. ")
  else if leadsWith "Anker Innovations Limited.".toList description.toList then
    ("Anker Innovations Limited.", trimPre description "Anker Innovations Limited. ")
  else if leadsWith "Valve Software".toList description.toList then
    ("Valve Software", trimPre description "Valve Software ")
  else if leadsWith "ASIX Electronics Corp.".toList description.toList then
    ("ASIX Electronics Corp.", trimPre description "ASIX Electronics Corp. ")
  else if leadsWith "Intel Corp.".toList description.toList then
    ("Intel Corp.", trimPre description "Intel Corp. ")
  else if leadsWith "Micro Star International".toList description.toList then
    ("Micro Star International", trimPre description "Micro Star International ")
  else if leadsWith "Genesys Logic, Inc.".toList description.toList then
    ("Genesys Logic, Inc.", trimPre description "Genesys Logic, Inc. ")
  else if leadsWith "SteelSeries ApS".toList description.toList then
    ("SteelSeries ApS", trimPre description "SteelSeries ApS ")
  else if leadsWith "KYE Systems Corp.".toList description.toList then
    ("KYE Systems Corp.", trimPre description "KYE Systems Corp. ")
  else
    match (description.toList.takeWhile (fun c => c ≠ ' ')),
          (description.toList.dropWhile (fun c => c ≠ ' ')) with
    | v, [] => (String.mk v, "")
    | v, _ :: rest => (String.mk v, String.mk rest)

/-- The keyword classifier of the flat-list backend (source order). -/
def classifyLsusb (productName : String) : String :=
  let productLower := lowerStr productName
  if hasSub productLower "hub" then "Hub"
  else if hasSub productLower "keyboard" || hasSub productLower "mouse" then "HID"
  else if hasSub productLower "camera" then "Video"
  else if hasSub productLower "audio" || hasSub productLower "headset"
       || hasSub productLower "arctis" then "Audio"
  else if hasSub productLower "ethernet" || hasSub productLower "ax88179" then "Communications"
  else if hasSub productLower "bluetooth" || hasSub productLower "ax200" then "Wireless"
  else if hasSub productLower "controller" then "HID"
  else if hasSub productLower "jtag" || hasSub productLower "serial" then "Communications"
  else "Device"

/-- One iteration of the `parseLsusbOutput` line loop: `none` when the
line is empty or fails the regex (the line is skipped). -/
def parseLsusbLine (line : String) : Option USBDevice :=
  if line = "" then none
  else
    match findFlat line.toList with
    | none => none
    | some (bus, address, vendorID, productID, rest) =>
      let description := String.mk (trimSpaceL rest)
      let (vendorName, productName) := splitDescription description
      let speed :=
        if vendorID = 0x1d6b then
          if productID = 0x0002 then "High (480 Mbps)"
          else if productID = 0x0003 then "Super (5 Gbps)"
          else "Unknown"
        else "Unknown"
      some { vendorID := vendorID, productID := productID,
             bus := bus, address := address, port := 0,
             vendorName := vendorName, productName := productName,
             speed := speed, Class := classifyLsusb productName }

/-- The fold step of the `parseLsusbOutput` line loop over the device
map: a parsed device is written under its `"%d-%d"` key, a skipped line
leaves the map unchanged. -/
def flatStep (m : List (DKey × USBDevice)) (line : String) : List (DKey × USBDevice) :=
  match parseLsusbLine line with
  | some d => insertKV m (d.bus, d.address) d
  | none => m

/-- Model of `parseLsusbOutput` on the split output lines: parsed devices are
written into a map keyed by `"%d-%d"` (bus, address), later lines
overwriting earlier ones with the same key; the map's values are
returned (insertion order fixes the map's enumeration order). -/
def parseLsusbOutput (lines : List String) : List USBDevice :=
  (lines.foldl flatStep []).map (fun e => e.2)

/-! ## Tree-text backend (`parseLsusbTree`)

Root lines match `Bus (\d+)\.Port (\d+): Dev (\d+).*?(\d+M)?$` and child
lines `Port (\d+): Dev (\d+).*?(\d+M)?$` (leftmost match).  The tail
`.*?(\d+M)?$` matches any remainder; under leftmost-first submatch
semantics the optional group captures the maximal digit run immediately
preceding a final `M`, and is empty otherwise. -/

/-- The capture of `.*?(\d+M)?$` on the remainder after the `Dev` digits
(which starts with a non-digit, the `Dev` run being maximal). -/
def speedTok (rest : List Char) : String :=
  match rest.reverse with
  | 'M' :: rs =>
    let ds := rs.takeWhile Char.isDigit
    if ds.isEmpty then "" else String.mk (ds.reverse ++ ['M'])
  | _ => ""

/-- Prefix part of the root-line regex at one position: bus, port, dev,
and the remainder feeding the speed group. -/
def matchRootAt (cs : List Char) : Option (Nat × Nat × Nat × List Char) := do
  let cs ← dropLit "Bus ".toList cs
  let (b, cs) ← takeRun1 Char.isDigit cs
  let cs ← dropLit ".Port ".toList cs
  let (p, cs) ← takeRun1 Char.isDigit cs
  let cs ← dropLit ": Dev ".toList cs
  let (dv, cs) ← takeRun1 Char.isDigit cs
  pure (digitsToNat b, digitsToNat p, digitsToNat dv, cs)

/-- Leftmost match of the root-line regex. -/
def findRoot : List Char → Option (Nat × Nat × Nat × List Char)
  | [] => matchRootAt []
  | c :: cs =>
    match matchRootAt (c :: cs) with
    | some r => some r
    | none => findRoot cs

/-- Prefix part of the child-line regex at one position. -/
def matchPortAt (cs : List Char) : Option (Nat × Nat × List Char) := do
  let cs ← dropLit "Port ".toList cs
  let (p, cs) ← takeRun1 Char.isDigit cs
  let cs ← dropLit ": Dev ".toList cs
  let (dv, cs) ← takeRun1 Char.isDigit cs
  pure (digitsToNat p, digitsToNat dv, cs)

/-- Leftmost match of the child-line regex. -/
def findPort : List Char → Option (Nat × Nat × List Char)
  | [] => matchPortAt []
  | c :: cs =>
    match matchPortAt (c :: cs) with
    | some r => some r
    | none => findPort cs

/-- Model of `treeNode`: one hierarchy-hint node.  The Go struct holds a parent
pointer; `mergeHierarchy` reads only the parent's bus and dev numbers, so
the model records that `(bus, dev)` pair.  (The `children` slice the
parser also fills is read by nothing and is omitted.) -/
structure TreeNode where
  bus : Nat
  port : Nat
  dev : Nat
  speed : String
  parent : Option (Nat × Nat)
deriving Repr, DecidableEq

/-- Parser state of `parseLsusbTree`: the nodes map, the current bus root
(only its bus number is ever read), and the parent stack (each entry's
`(bus, dev)` key). -/
structure TreeParseState where
  nodes : List (DKey × TreeNode)
  currentBusRoot : Option Nat
  parentStack : List DKey
deriving Repr, DecidableEq

/-- One iteration of the `parseLsusbTree` line loop. -/
def treeStep (st : TreeParseState) (line : String) : TreeParseState :=
  if line = "" then st
  else
    let cs := line.toList
    let indent := (cs.takeWhile (fun c => c = ' ')).length
    let level := indent / 4
    if leadsWith "/:".toList (trimSpaceL cs) then
      match findRoot cs with
      | some (bus, port, dv, rest) =>
        let node : TreeNode :=
          { bus := bus, port := port, dev := dv, speed := speedTok rest, parent := none }
        { nodes := insertKV st.nodes (bus, dv) node,
          currentBusRoot := some bus,
          parentStack := [(bus, dv)] }
      | none => st
    else if hasSubL "Port".toList cs then
      match findPort cs with
      | some (port, dv, rest) =>
        match st.currentBusRoot with
        | none => st
        | some rootBus =>
          let stack1 := st.parentStack.take level
          let parent := stack1.getLast?
          let node : TreeNode :=
            { bus := rootBus, port := port, dev := dv, speed := speedTok rest,
              parent := parent }
          if (lookupKV st.nodes (rootBus, dv)).isSome then
            { st with parentStack := stack1 }
          else
            { nodes := st.nodes ++ [((rootBus, dv), node)],
              currentBusRoot := st.currentBusRoot,
              parentStack :=
                if stack1.length ≤ level then stack1 ++ [(rootBus, dv)]
                else stack1.set level (rootBus, dv) }
      | none => st
    else st

/-- Model of `parseLsusbTree` on the split `lsusb -t` output lines, returning the
`(bus, dev)`-keyed hierarchy-hint map. -/
def parseLsusbTree (lines : List String) : List (DKey × TreeNode) :=
  (lines.foldl treeStep { nodes := [], currentBusRoot := none, parentStack := [] }).nodes

/-! ## Topology reconstruction (`mergeHierarchy`, `organizeHierarchy`) -/

/-- The per-device enrichment at the top of `mergeHierarchy`: copy port
and (converted, nonempty) speed from the matching hint node. -/
def updateFromHierarchy (hierarchy : List (DKey × TreeNode)) (d : USBDevice) : USBDevice :=
  match lookupKV hierarchy (d.bus, d.address) with
  | some node =>
    { d with port := node.port,
             speed := if node.speed ≠ "" then convertSpeed node.speed else d.speed }
  | none => d

/-- Result of a reconstruction: the enriched flat records, the returned
per-bus roots, and the parent/child edges (`AddChild` calls) as
`(parentKey, childKey)` pairs in attachment order. -/
structure MergeResult where
  devices : List USBDevice
  roots : List USBDevice
  edges : List (DKey × DKey)
deriving Repr, DecidableEq

/-- The enriched device list at the top of `mergeHierarchy`. -/
def mergeUpdated (devices : List USBDevice) (hierarchy : List (DKey × TreeNode)) :
    List USBDevice :=
  devices.map (updateFromHierarchy hierarchy)

/-- The `deviceMap` of `mergeHierarchy`, keyed by `"%d-%d"` (bus, address). -/
def mergeDeviceMap (devices : List USBDevice) (hierarchy : List (DKey × TreeNode)) :
    List (DKey × USBDevice) :=
  (mergeUpdated devices hierarchy).foldl (fun m d => insertKV m (d.bus, d.address) d) []

/-- The `rootDevices` of `mergeHierarchy`: address-1 devices keyed by bus. -/
def mergeRoots (devices : List USBDevice) (hierarchy : List (DKey × TreeNode)) :
    List (Nat × USBDevice) :=
  (mergeUpdated devices hierarchy).foldl
    (fun r d => if d.address = 1 then insertBus r d.bus d else r) []

/-- The edge (if any) one hint node contributes in `mergeHierarchy`'s
hierarchy loop: the node's device is attached under its parent's device
when both resolve in the device map. -/
def mergeEdge (deviceMap : List (DKey × USBDevice)) (e : DKey × TreeNode) :
    Option (DKey × DKey) :=
  if (lookupKV deviceMap e.1).isSome then
    match e.2.parent with
    | some pk => if (lookupKV deviceMap pk).isSome then some (pk, e.1) else none
    | none => none
  else none

/-- Model of `mergeHierarchy`: enrich devices from the hint map, collect address-1
devices as per-bus roots, attach each hint node's device under its
parent's device when both resolve, and fall back (when no root was found)
to re-collecting roots and attaching non-root devices beneath them. -/
def mergeHierarchy (devices : List USBDevice) (hierarchy : List (DKey × TreeNode)) :
    MergeResult :=
  let updated := mergeUpdated devices hierarchy
  let deviceMap := mergeDeviceMap devices hierarchy
  let rootDevices := mergeRoots devices hierarchy
  let edges := hierarchy.filterMap (mergeEdge deviceMap)
  let result := rootDevices.map (fun e => e.2)
  if result.isEmpty then
    let rootDevices2 := updated.foldl
      (fun r d => if d.address = 1 then insertBus r d.bus d else r) rootDevices
    let extraEdges := updated.filterMap (fun d =>
      if d.address ≠ 1 then
        (lookupBus rootDevices2 d.bus).map
          (fun rt => ((rt.bus, rt.address), (d.bus, d.address)))
      else none)
    { devices := updated, roots := rootDevices2.map (fun e => e.2),
      edges := edges ++ extraEdges }
  else
    { devices := updated, roots := result, edges := edges }

/-- The edge (if any) one `organizeHierarchy` iteration produces for the
map entry `(k, d)`: devices with non-zero port attach under the device at
`(bus, port)` when present, else under the bus root when present. -/
def orgEdge (deviceMap : List (DKey × USBDevice)) (rootDevices : List (Nat × DKey))
    (k : DKey) (d : USBDevice) : Option (DKey × DKey) :=
  if 0 < d.port then
    match lookupKV deviceMap (d.bus, d.port) with
    | some _ => some ((d.bus, d.port), k)
    | none =>
      match lookupBus rootDevices d.bus with
      | some rk => some (rk, k)
      | none => none
  else none

/-- Model of `organizeHierarchy`: one pass over the device map, emitting the
`AddChild` edges in iteration order. -/
def organizeHierarchy (deviceMap : List (DKey × USBDevice))
    (rootDevices : List (Nat × DKey)) : List (DKey × DKey) :=
  deviceMap.filterMap (fun e => orgEdge deviceMap rootDevices e.1 e.2)

/-! ## The libusb pipeline (`getDevicesViaLibusb`, linux variant) -/

/-- Model of `getUSBVersion`: bus-slot heuristic for the synthesized hub name. -/
def getUSBVersion (busNum : Nat) : Nat :=
  if busNum ≤ 2 then 2 else 3

/-- Model of `getDefaultSpeedForBus`. -/
def getDefaultSpeedForBus (busNum : Nat) : String :=
  if busNum ≤ 2 then "High (480 Mbps)" else "Super (5 Gbps)"

/-- Model of `getProductIDForUSBVersion`. -/
def getProductIDForUSBVersion (busNum : Nat) : Nat :=
  if busNum ≤ 2 then 0x0002 else 0x0003

/-- The synthesized Linux Foundation root hub for one bus. -/
def mkLinuxRootHub (busNum : Nat) : USBDevice :=
  { vendorID := 0x1d6b, productID := getProductIDForUSBVersion busNum,
    vendorName := "Linux Foundation",
    productName := "USB " ++ toString (getUSBVersion busNum) ++ ".0 Root Hub",
    bus := busNum, address := 1, port := 0,
    speed := getDefaultSpeedForBus busNum,
    Class := "Hub", subClass := "00", protocol := "00" }

/-- Result of the libusb pipeline: returned roots plus `AddChild` edges. -/
structure LibusbResult where
  roots : List USBDevice
  edges : List (DKey × DKey)
deriving Repr, DecidableEq

/-- Model of `getDevicesViaLibusb` after descriptor conversion: key the enumerated
records by `(bus, address)`, synthesize a root hub for every observed bus
(overwriting the `(bus, 1)` slot), synthesize hubs for buses 1 and 2 when
nothing was enumerated, then organize the hierarchy.  The first-occurrence
order of buses stands in for Go's map iteration order. -/
def getDevicesViaLibusb (devices : List USBDevice) : LibusbResult :=
  let deviceMap0 := devices.foldl (fun m d => insertKV m (d.bus, d.address) d) []
  let busNumbers := (devices.map (fun d => d.bus)).dedup
  let step := fun (s : List (DKey × USBDevice) × List (Nat × USBDevice)) (b : Nat) =>
    let rootHub := mkLinuxRootHub b
    (insertKV s.1 (b, 1) rootHub, insertBus s.2 b rootHub)
  let s1 := busNumbers.foldl step (deviceMap0, [])
  let s2 := if busNumbers.isEmpty then [1, 2].foldl step s1 else s1
  let edges := organizeHierarchy s2.1
    (s2.2.map (fun e => (e.1, ((e.2).bus, (e.2).address))))
  { roots := s2.2.map (fun e => e.2), edges := edges }

/-! ## Helper lemmas -/

theorem orgEdge_snd {dm : List (DKey × USBDevice)} {roots : List (Nat × DKey)}
    {k : DKey} {d : USBDevice} {r : DKey × DKey}
    (h : orgEdge dm roots k d = some r) : r.2 = k := by
  unfold orgEdge at h
  split at h
  · split at h
    · cases h; rfl
    · split at h
      · cases h; rfl
      · exact Option.noConfusion h
  · exact Option.noConfusion h

theorem mergeEdge_snd {dm : List (DKey × USBDevice)} {e : DKey × TreeNode}
    {r : DKey × DKey} (h : mergeEdge dm e = some r) : r.2 = e.1 := by
  unfold mergeEdge at h
  split at h
  · split at h
    · split at h
      · cases h; rfl
      · exact Option.noConfusion h
    · exact Option.noConfusion h
  · exact Option.noConfusion h

/-- Counting matches of a filterMap whose outputs carry the input's key in
their second component: bounded by the count of inputs with that key. -/
theorem countP_filterMap_child_le {α : Type} (l : List α) (f : α → Option (DKey × DKey))
    (key : α → DKey) (hf : ∀ a r, f a = some r → r.2 = key a) (c : DKey) :
    (l.filterMap f).countP (fun e => e.2 = c) ≤ l.countP (fun a => key a = c) := by
  induction l with
  | nil => simp
  | cons a t ih =>
    cases h : f a with
    | none =>
      simp only [List.filterMap_cons, h, List.countP_cons]
      omega
    | some r =>
      have hr : r.2 = key a := hf a r h
      simp only [List.filterMap_cons, h, List.countP_cons, hr]
      omega

/-- In a duplicate-free list, at most one element equals `c`. -/
theorem nodup_countP_le_one {α : Type} [DecidableEq α] (l : List α) (h : l.Nodup)
    (c : α) : l.countP (fun a => a = c) ≤ 1 := by
  induction l with
  | nil => simp
  | cons a t ih =>
    rw [List.nodup_cons] at h
    rw [List.countP_cons]
    by_cases hac : a = c
    · have ht : t.countP (fun b => b = c) = 0 := by
        rw [List.countP_eq_zero]
        intro b hb
        simp only [decide_eq_true_eq]
        intro hbc
        exact h.1 (by rw [hac, ← hbc]; exact hb)
      rw [ht]
      simp [hac]
    · have hd : decide (a = c) = false := by simp [hac]
      rw [hd]
      simpa using ih h.2

theorem countP_map_fst {α : Type} (l : List (DKey × α)) (c : DKey) :
    l.countP (fun e => e.1 = c) = (l.map Prod.fst).countP (fun k => k = c) := by
  rw [List.countP_map]; rfl

theorem insertKV_fresh {α : Type} {m : List (DKey × α)} {k : DKey} (v : α)
    (h : lookupKV m k = none) : insertKV m k v = m ++ [(k, v)] := by
  unfold lookupKV at h
  unfold insertKV
  cases hf : m.find? (fun e => e.1 = k) with
  | some e => rw [hf] at h; exact Option.noConfusion h
  | none => simp [hf]

theorem lookupKV_nil {α : Type} (k : DKey) : lookupKV ([] : List (DKey × α)) k = none := rfl

theorem lookupKV_cons {α : Type} (e : DKey × α) (m : List (DKey × α)) (k : DKey) :
    lookupKV (e :: m) k = if e.1 = k then some e.2 else lookupKV m k := by
  unfold lookupKV
  rw [List.find?_cons]
  by_cases h : e.1 = k
  · simp [h]
  · simp [h]

theorem lookupKV_append_none {α : Type} {m1 m2 : List (DKey × α)} {k : DKey}
    (h1 : lookupKV m1 k = none) (h2 : lookupKV m2 k = none) :
    lookupKV (m1 ++ m2) k = none := by
  induction m1 with
  | nil => simpa using h2
  | cons e t ih =>
    rw [List.cons_append, lookupKV_cons]
    rw [lookupKV_cons] at h1
    by_cases he : e.1 = k
    · rw [if_pos he] at h1; exact Option.noConfusion h1
    · rw [if_neg he] at h1 ⊢; exact ih h1

theorem lookupKV_singleton_ne {α : Type} {k k' : DKey} (v : α) (h : k ≠ k') :
    lookupKV [(k, v)] k' = none := by
  rw [lookupKV_cons]
  simp only [if_neg h]
  rfl

/-- Association-list lookup is invariant under permutation when the keys
are duplicate-free (models the order-independence of Go map reads). -/
theorem lookupKV_perm {α : Type} {l1 l2 : List (DKey × α)} (hp : l1.Perm l2) :
    (l1.map Prod.fst).Nodup → ∀ k, lookupKV l1 k = lookupKV l2 k := by
  induction hp with
  | nil => intro _ _; rfl
  | cons x _ ih =>
    intro hnd k
    rw [List.map_cons, List.nodup_cons] at hnd
    rw [lookupKV_cons, lookupKV_cons]
    by_cases hx : x.1 = k
    · simp [hx]
    · rw [if_neg hx, if_neg hx]; exact ih hnd.2 k
  | swap x y l =>
    intro hnd k
    rw [List.map_cons, List.map_cons, List.nodup_cons, List.nodup_cons] at hnd
    have hxy : y.1 ≠ x.1 := by
      intro h; exact hnd.1 (by rw [h]; exact List.mem_cons_self _ _)
    rw [lookupKV_cons, lookupKV_cons, lookupKV_cons, lookupKV_cons]
    by_cases hy : y.1 = k
    · have hxk : ¬ x.1 = k := by rw [← hy]; exact fun h => hxy h.symm
      rw [if_pos hy, if_neg hxk, if_pos hy]
    · by_cases hx : x.1 = k
      · rw [if_neg hy, if_pos hx, if_pos hx]
      · rw [if_neg hy, if_neg hx, if_neg hx, if_neg hy]
  | trans h1 _ ih1 ih2 =>
    intro hnd k
    have hnd2 := ((h1.map Prod.fst).nodup_iff).mp hnd
    exact (ih1 hnd k).trans (ih2 hnd2 k)

theorem mergeHierarchy_devices (devices : List USBDevice)
    (hierarchy : List (DKey × TreeNode)) :
    (mergeHierarchy devices hierarchy).devices = mergeUpdated devices hierarchy := by
  unfold mergeHierarchy
  dsimp only
  split <;> rfl

theorem mergeRoots_of_empty {devices : List USBDevice}
    {hierarchy : List (DKey × TreeNode)}
    (h : ((mergeRoots devices hierarchy).map (fun e => e.2)).isEmpty = true) :
    mergeRoots devices hierarchy = [] := by
  rw [List.isEmpty_iff] at h
  exact List.map_eq_nil_iff.mp h

theorem mergeHierarchy_roots (devices : List USBDevice)
    (hierarchy : List (DKey × TreeNode)) :
    (mergeHierarchy devices hierarchy).roots
      = (mergeRoots devices hierarchy).map (fun e => e.2) := by
  unfold mergeHierarchy
  dsimp only
  split
  case isTrue h =>
    have hnil := mergeRoots_of_empty h
    have hfold : (mergeUpdated devices hierarchy).foldl
        (fun r d => if d.address = 1 then insertBus r d.bus d else r) []
        = mergeRoots devices hierarchy := rfl
    rw [hnil, hfold, hnil]
  case isFalse h => rfl

theorem mergeHierarchy_edges (devices : List USBDevice)
    (hierarchy : List (DKey × TreeNode)) :
    (mergeHierarchy devices hierarchy).edges
      = hierarchy.filterMap (mergeEdge (mergeDeviceMap devices hierarchy)) := by
  unfold mergeHierarchy
  dsimp only
  split
  case isTrue h =>
    have hnil := mergeRoots_of_empty h
    have hfold : (mergeUpdated devices hierarchy).foldl
        (fun r d => if d.address = 1 then insertBus r d.bus d else r) []
        = mergeRoots devices hierarchy := rfl
    rw [hnil, hfold, hnil]
    have hextra : (mergeUpdated devices hierarchy).filterMap (fun d =>
        if d.address ≠ 1 then
          (lookupBus ([] : List (Nat × USBDevice)) d.bus).map
            (fun rt => ((rt.bus, rt.address), (d.bus, d.address)))
        else none) = [] := by
      rw [List.filterMap_eq_nil_iff]
      intro d _
      by_cases hd : d.address ≠ 1 <;> simp [hd, lookupBus]
    rw [hextra, List.append_nil]
  case isFalse h => rfl

theorem foldl_flatStep_filter (lines : List String) :
    ∀ acc, lines.foldl flatStep acc
      = (lines.filter (fun l => (parseLsusbLine l).isSome)).foldl flatStep acc := by
  induction lines with
  | nil => intro acc; rfl
  | cons l ls ih =>
    intro acc
    cases h : parseLsusbLine l with
    | some d =>
      have hsome : (parseLsusbLine l).isSome = true := by rw [h]; rfl
      rw [List.filter_cons, if_pos hsome, List.foldl_cons, List.foldl_cons]
      exact ih _
    | none =>
      have hnone : (parseLsusbLine l).isSome = false := by rw [h]; rfl
      rw [List.filter_cons, List.foldl_cons]
      rw [hnone]
      have hstep : flatStep acc l = acc := by unfold flatStep; rw [h]
      rw [if_neg (by simp), hstep]
      exact ih _

theorem foldl_flatStep_nodup (lines : List String) :
    ∀ acc : List (DKey × USBDevice),
    ((lines.filterMap parseLsusbLine).map (fun d => (d.bus, d.address))).Nodup →
    (∀ d ∈ lines.filterMap parseLsusbLine, lookupKV acc (d.bus, d.address) = none) →
    lines.foldl flatStep acc
      = acc ++ (lines.filterMap parseLsusbLine).map (fun d => ((d.bus, d.address), d)) := by
  induction lines with
  | nil => intro acc _ _; simp
  | cons l ls ih =>
    intro acc hnd hfresh
    cases h : parseLsusbLine l with
    | none =>
      have hfm : (l :: ls).filterMap parseLsusbLine = ls.filterMap parseLsusbLine := by
        rw [List.filterMap_cons, h]
      rw [hfm] at hnd hfresh
      rw [hfm, List.foldl_cons]
      have hstep : flatStep acc l = acc := by unfold flatStep; rw [h]
      rw [hstep]
      exact ih acc hnd hfresh
    | some d =>
      have hfm : (l :: ls).filterMap parseLsusbLine = d :: ls.filterMap parseLsusbLine := by
        rw [List.filterMap_cons, h]
      rw [hfm] at hnd hfresh
      rw [List.map_cons, List.nodup_cons] at hnd
      have hstep : flatStep acc l = acc ++ [((d.bus, d.address), d)] := by
        unfold flatStep
        rw [h]
        exact insertKV_fresh d (hfresh d (List.mem_cons_self _ _))
      rw [List.foldl_cons, hstep]
      have hfresh2 : ∀ d' ∈ ls.filterMap parseLsusbLine,
          lookupKV (acc ++ [((d.bus, d.address), d)]) (d'.bus, d'.address) = none := by
        intro d' hd'
        have hne : (d.bus, d.address) ≠ (d'.bus, d'.address) := by
          intro he
          exact hnd.1 (he ▸ List.mem_map_of_mem (fun x => (x.bus, x.address)) hd')
        exact lookupKV_append_none
          (hfresh d' (List.mem_cons_of_mem _ hd'))
          (lookupKV_singleton_ne d hne)
      rw [ih _ hnd.2 hfresh2, hfm, List.map_cons]
      simp

/-- Each device of a map with duplicate-free keys is attached at most
once by `organizeHierarchy`. -/
theorem organizeHierarchy_child_once (deviceMap : List (DKey × USBDevice))
    (rootDevices : List (Nat × DKey)) (hnd : (deviceMap.map Prod.fst).Nodup) (c : DKey) :
    (organizeHierarchy deviceMap rootDevices).countP (fun e => e.2 = c) ≤ 1 := by
  unfold organizeHierarchy
  calc (deviceMap.filterMap
          (fun e => orgEdge deviceMap rootDevices e.1 e.2)).countP (fun e => e.2 = c)
      ≤ deviceMap.countP (fun a => a.1 = c) :=
        countP_filterMap_child_le deviceMap _ Prod.fst (fun _ _ hr => orgEdge_snd hr) c
    _ = (deviceMap.map Prod.fst).countP (fun k => k = c) := countP_map_fst deviceMap c
    _ ≤ 1 := nodup_countP_le_one _ hnd c

/-- Each device is attached at most once by `mergeHierarchy` when the
hint map's keys are duplicate-free. -/
theorem mergeHierarchy_child_once (devices : List USBDevice)
    (hierarchy : List (DKey × TreeNode)) (hnd : (hierarchy.map Prod.fst).Nodup) (c : DKey) :
    ((mergeHierarchy devices hierarchy).edges).countP (fun e => e.2 = c) ≤ 1 := by
  rw [mergeHierarchy_edges]
  calc (hierarchy.filterMap (mergeEdge (mergeDeviceMap devices hierarchy))).countP
          (fun e => e.2 = c)
      ≤ hierarchy.countP (fun a => a.1 = c) :=
        countP_filterMap_child_le hierarchy _ Prod.fst (fun _ _ hr => mergeEdge_snd hr) c
    _ = (hierarchy.map Prod.fst).countP (fun k => k = c) := countP_map_fst hierarchy c
    _ ≤ 1 := nodup_countP_le_one _ hnd c

/-! ## Concrete scenario inputs -/

/-- Scenario A root record: bus 1, address 1, `1d6b:0002`. -/
def recA1 : USBDevice :=
  { vendorID := 0x1d6b, productID := 0x0002, bus := 1, address := 1, port := 0 }

/-- Scenario A device record: bus 1, address 2, port 1, `046d:c52b`. -/
def recA2 : USBDevice :=
  { vendorID := 0x046d, productID := 0xc52b, productName := "USB Receiver",
    bus := 1, address := 2, port := 1 }

/-- Scenario B flat-list line. -/
def lineScenarioB : String := "Bus 001 Device 002: ID 05ac:027e Apple Inc. Internal Keyboard"

/-- Scenario D hint-tree lines. -/
def hintRootLine : String := "/:  Bus 1.Port 1: Dev 1"

def hintChildLine : String := "    Port 2: Dev 3, 480M"

/-- Scenario D flat record for (bus 1, device 1). -/
def recDev1 : USBDevice :=
  { vendorID := 0x1d6b, productID := 0x0002, vendorName := "Linux Foundation",
    productName := "2.0 root hub", bus := 1, address := 1, port := 0,
    speed := "High (480 Mbps)", Class := "Hub" }

/-- Scenario D flat record for (bus 1, device 3). -/
def recDev3 : USBDevice :=
  { vendorID := 0x046d, productID := 0xc534, vendorName := "Logitech",
    productName := "Unifying Receiver", bus := 1, address := 3, port := 0,
    speed := "Unknown", Class := "Device" }

/-! ## Claims -/

set_option maxRecDepth 10000

/-- C3: parsing the hint tree `Bus 1.Port 1: Dev 1` with indented child
`Port 2: Dev 3, 480M` and merging it into the flat records sets the
(bus 1, device 3) Record's port to 2 and speed to "High (480 Mbps)"
(the trailing `480M` token converted through the speed table), and
attaches that Record as a child of the (bus 1, device 1) Record. -/
theorem claim_C3 :
    parseLsusbTree [hintRootLine, hintChildLine]
      = [((1, 1), { bus := 1, port := 1, dev := 1, speed := "", parent := none }),
         ((1, 3), { bus := 1, port := 2, dev := 3, speed := "480M", parent := some (1, 1) })] ∧
    convertSpeed "480M" = "High (480 Mbps)" ∧
    mergeHierarchy [recDev1, recDev3] (parseLsusbTree [hintRootLine, hintChildLine])
      = { devices := [{ recDev1 with port := 1 },
                      { recDev3 with port := 2, speed := "High (480 Mbps)" }],
          roots := [{ recDev1 with port := 1 }],
          edges := [((1, 1), (1, 3))] } := by
  refine ⟨by decide, by decide, by decide⟩

/-- C4 counterexample: on the Scenario B line the splitter yields vendor
name "Apple", not "Apple Inc." (the prefix table has no "Apple Inc."
entry), refuting the claimed vendor/product split. -/
theorem claim_C4_counterexample :
    (parseLsusbOutput [lineScenarioB]).map (fun d => (d.vendorName, d.productName))
      = [("Apple", "Inc. Internal Keyboard")] ∧
    ("Apple" : String) ≠ "Apple Inc." := by
  refine ⟨by decide, by decide⟩

/-- C4 (amended): the Scenario B line produces a Record with vendorName
"Apple" and productName "Inc. Internal Keyboard" — the multi-word
vendor-prefix table does not contain "Apple Inc.", so the first-word
fallback split applies — and class "HID" from the keyword "keyboard". -/
theorem claim_C4 :
    parseLsusbOutput [lineScenarioB]
      = [{ vendorID := 0x05ac, productID := 0x027e, vendorName := "Apple",
           productName := "Inc. Internal Keyboard", bus := 1, address := 2, port := 0,
           speed := "Unknown", Class := "HID" }] ∧
    splitDescription "Apple Inc. Internal Keyboard" = ("Apple", "Inc. Internal Keyboard") ∧
    classifyLsusb "Inc. Internal Keyboard" = "HID" := by
  refine ⟨by decide, by decide, by decide⟩

/-- C5: with zero devices and zero buses enumerated, the libusb pipeline
returns exactly the two synthesized Linux Foundation root hubs for buses
1 and 2 (no edges), and the defaulting rules give bus numbers at most 2
speed "High (480 Mbps)" and product ID 0x0002, higher buses
"Super (5 Gbps)" and 0x0003. -/
theorem claim_C5 :
    getDevicesViaLibusb []
      = { roots :=
            [{ vendorID := 0x1d6b, productID := 0x0002, vendorName := "Linux Foundation",
               productName := "USB 2.0 Root Hub", bus := 1, address := 1, port := 0,
               speed := "High (480 Mbps)", Class := "Hub", subClass := "00", protocol := "00" },
             { vendorID := 0x1d6b, productID := 0x0002, vendorName := "Linux Foundation",
               productName := "USB 2.0 Root Hub", bus := 2, address := 1, port := 0,
               speed := "High (480 Mbps)", Class := "Hub", subClass := "00", protocol := "00" }],
          edges := [] } ∧
    (∀ busNum : Nat, getDefaultSpeedForBus busNum
        = if busNum ≤ 2 then "High (480 Mbps)" else "Super (5 Gbps)") ∧
    (∀ busNum : Nat, getProductIDForUSBVersion busNum
        = if busNum ≤ 2 then 0x0002 else 0x0003) :=
  ⟨by decide, fun _ => rfl, fun _ => rfl⟩

/-- C7: every class code in the fixed table maps to its listed name, and
every code outside the table (class codes are bytes, below 256) maps to
`"Class "` followed by exactly two lowercase hex digits. -/
theorem claim_C7 :
    (getClassString 0x00 = "Device" ∧ getClassString 0x01 = "Audio" ∧
     getClassString 0x02 = "Communications" ∧ getClassString 0x03 = "HID" ∧
     getClassString 0x05 = "Physical" ∧ getClassString 0x06 = "Image" ∧
     getClassString 0x07 = "Printer" ∧ getClassString 0x08 = "Mass Storage" ∧
     getClassString 0x09 = "Hub" ∧ getClassString 0x0a = "CDC Data" ∧
     getClassString 0x0b = "Smart Card" ∧ getClassString 0x0d = "Content Security" ∧
     getClassString 0x0e = "Video" ∧ getClassString 0x0f = "Personal Healthcare" ∧
     getClassString 0x10 = "Audio/Video" ∧ getClassString 0xdc = "Diagnostic" ∧
     getClassString 0xe0 = "Wireless" ∧ getClassString 0xef = "Miscellaneous" ∧
     getClassString 0xfe = "Application Specific" ∧ getClassString 0xff = "Vendor Specific") ∧
    (∀ class_ : Nat, class_ < 256 → class_ ∉ classNames.map Prod.fst →
      getClassString class_ = "Class " ++ sprintf02x class_ ∧
      (sprintf02x class_).toList.length = 2 ∧
      (sprintf02x class_).toList.all isLowerHex = true) := by
  refine ⟨by decide, by decide⟩

/-- C7 witness: the untabulated code 0x12 evaluates to "Class 12". -/
theorem claim_C7_witness :
    getClassString 0x12 = "Class 12" ∧ (sprintf02x 0x12).toList.length = 2 := by
  have h := claim_C7.2 0x12 (by decide) (by decide)
  exact ⟨by rw [h.1]; decide, h.2.1⟩

/-- C8 counterexample: a non-empty unrecognized speed string is returned
unchanged by the structured backend's conversion, not mapped to
"Unknown", refuting the claim's unknown-speed clause. -/
theorem claim_C8_counterexample :
    convertSystemProfilerSpeed "warp" = "warp" ∧
    convertSystemProfilerSpeed "warp" ≠ "Unknown" := by
  refine ⟨by decide, by decide⟩

/-- C8 (amended): recognized speed codes map to their fixed labels and
every unrecognized code maps to "Unknown" (the code table has no Super+
entry); the structured text conversion maps its recognized substrings to
fixed labels (including Super+ (10 Gbps)) and the empty string to
"Unknown", but returns a non-empty unrecognized speed string unchanged. -/
theorem claim_C8 :
    (getSpeedString 1 = "Low (1.5 Mbps)" ∧ getSpeedString 2 = "Full (12 Mbps)" ∧
     getSpeedString 3 = "High (480 Mbps)" ∧ getSpeedString 4 = "Super (5 Gbps)") ∧
    (∀ n : Nat, n ≠ 1 → n ≠ 2 → n ≠ 3 → n ≠ 4 → getSpeedString n = "Unknown") ∧
    (convertSystemProfilerSpeed "low_speed" = "Low (1.5 Mbps)" ∧
     convertSystemProfilerSpeed "full_speed" = "Full (12 Mbps)" ∧
     convertSystemProfilerSpeed "high_speed" = "High (480 Mbps)" ∧
     convertSystemProfilerSpeed "super_speed_5gbps" = "Super (5 Gbps)" ∧
     convertSystemProfilerSpeed "super_speed_10gbps" = "Super+ (10 Gbps)" ∧
     convertSystemProfilerSpeed "super_speed" = "Super (5 Gbps)" ∧
     convertSystemProfilerSpeed "" = "Unknown") ∧
    (∀ s : String,
      hasSub s "low_speed" = false → hasSub s "full_speed" = false →
      hasSub s "high_speed" = false → hasSub s "super_speed_5gbps" = false →
      hasSub s "super_speed_10gbps" = false → hasSub s "super_speed" = false →
      s ≠ "" → convertSystemProfilerSpeed s = s) := by
  refine ⟨by decide, ?_, by decide, ?_⟩
  · intro n h1 h2 h3 h4
    simp [getSpeedString, h1, h2, h3, h4]
  · intro s h1 h2 h3 h4 h5 h6 h7
    simp [convertSystemProfilerSpeed, h1, h2, h3, h4, h5, h6, h7]

/-- C8 witness: the unrecognized code 9 and the unrecognized non-empty
string "x" behave as the theorem states. -/
theorem claim_C8_witness :
    getSpeedString 9 = "Unknown" ∧ convertSystemProfilerSpeed "x" = "x" :=
  ⟨claim_C8.2.1 9 (by decide) (by decide) (by decide) (by decide),
   claim_C8.2.2.2 "x" (by decide) (by decide) (by decide) (by decide)
     (by decide) (by decide) (by decide)⟩

/-- C10: `parseHexID` is total and never signals an error: the empty
string, a string whose 0x-stripped remainder is empty or contains a
non-hex character, and a value at least 2^16 all yield 0; consequently a
controller whose vendor and product ID strings are malformed gets the
default root-hub identity (vendor 0x05ac, product 0x0003 when USB 3 is
detected, otherwise 0x0002). -/
theorem claim_C10 :
    (parseHexID "" = 0) ∧
    (∀ s : String, trimPre s "0x" = "" → parseHexID s = 0) ∧
    (∀ s : String, (trimPre s "0x").toList.all isGoHexDigit = false → parseHexID s = 0) ∧
    (∀ s : String, 65536 ≤ hexValL (trimPre s "0x").toList → parseHexID s = 0) ∧
    (∀ (controller : SpUSBController) (busNumber : Nat),
      parseHexID controller.vendorID = 0 → parseHexID controller.productID = 0 →
      (createRootHubFromController controller busNumber).vendorID = 0x05ac ∧
      (createRootHubFromController controller busNumber).productID
        = (if ctrlIsUSB3 controller then 0x0003 else 0x0002)) := by
  refine ⟨rfl, ?_, ?_, ?_, ?_⟩
  · intro s h
    unfold parseHexID
    by_cases hs : s = ""
    · rw [if_pos hs]
    · rw [if_neg hs, h]
      rfl
  · intro s h
    unfold parseHexID
    by_cases hs : s = ""
    · rw [if_pos hs]
    · rw [if_neg hs]
      have hnone : parseUint16Hex (trimPre s "0x") = none := by
        unfold parseUint16Hex
        rw [h]
        simp
      rw [hnone]
  · intro s h
    unfold parseHexID
    by_cases hs : s = ""
    · rw [if_pos hs]
    · rw [if_neg hs]
      have hnone : parseUint16Hex (trimPre s "0x") = none := by
        unfold parseUint16Hex
        split_ifs with h1 h2 h3
        · rfl
        · exfalso; omega
        · rfl
        · rfl
      rw [hnone]
  · intro controller busNumber hv hp
    constructor <;>
      simp [createRootHubFromController, hv, hp,
        apply_ite USBDevice.vendorID, apply_ite USBDevice.productID]

/-- C10 witness: concrete malformed ID strings ("zz" non-hex, "0xQQQQ"
non-hex after stripping, "12345" overflowing 16 bits) all parse to 0, and
a controller carrying two of them gets the default Apple vendor ID. -/
theorem claim_C10_witness :
    parseHexID "zz" = 0 ∧ parseHexID "0xQQQQ" = 0 ∧ parseHexID "12345" = 0 ∧
    (createRootHubFromController
        { name := "PXSX", hostController := "XHCI", vendorID := "zz",
          productID := "0xQQQQ" } 1).vendorID = 0x05ac :=
  ⟨claim_C10.2.2.1 "zz" (by decide),
   claim_C10.2.2.1 "0xQQQQ" (by decide),
   claim_C10.2.2.2.1 "12345" (by decide),
   (claim_C10.2.2.2.2
      { name := "PXSX", hostController := "XHCI", vendorID := "zz",
        productID := "0xQQQQ" } 1 (by decide) (by decide)).1⟩

/-- C9 counterexample: two well-formed lines sharing the same
(bus, address) key produce a single Record (the later line overwrites the
earlier), refuting "a Record for exactly the lines matching the
pattern". -/
theorem claim_C9_counterexample :
    (["Bus 001 Device 002: ID aaaa:bbbb Widget One",
      "Bus 001 Device 002: ID cccc:dddd Widget Two"].filter
        (fun l => (parseLsusbLine l).isSome)).length = 2 ∧
    (parseLsusbOutput
      ["Bus 001 Device 002: ID aaaa:bbbb Widget One",
       "Bus 001 Device 002: ID cccc:dddd Widget Two"]).length = 1 := by
  refine ⟨by decide, by decide⟩

/-- C9 (amended): the flat-list adapter is total (no error path in the
parse itself); lines that fail the line pattern are skipped and never
change the Records produced from the well-formed lines (dropping them
leaves the output unchanged); and when the matching lines carry pairwise
distinct (bus, address) keys the output is exactly one Record per
matching line, in order — a later matching line with a duplicate key
overwrites the earlier one. -/
theorem claim_C9 :
    (∀ lines : List String,
      parseLsusbOutput lines
        = parseLsusbOutput (lines.filter (fun l => (parseLsusbLine l).isSome))) ∧
    (∀ lines : List String,
      ((lines.filterMap parseLsusbLine).map (fun d => (d.bus, d.address))).Nodup →
      parseLsusbOutput lines = lines.filterMap parseLsusbLine) := by
  constructor
  · intro lines
    unfold parseLsusbOutput
    rw [foldl_flatStep_filter]
  · intro lines hnd
    unfold parseLsusbOutput
    rw [foldl_flatStep_nodup lines [] hnd (fun d _ => rfl), List.nil_append, List.map_map]
    exact List.map_id _

/-- C9 witness: a concrete mixed input (one well-formed line, one
malformed line) yields exactly the Record of the well-formed line. -/
theorem claim_C9_witness :
    parseLsusbOutput ["Bus 001 Device 002: ID 05ac:027e Foo", "garbage"]
      = ["Bus 001 Device 002: ID 05ac:027e Foo", "garbage"].filterMap parseLsusbLine :=
  claim_C9.2 ["Bus 001 Device 002: ID 05ac:027e Foo", "garbage"] (by decide)

/-- C1 counterexample: a device whose port number equals its own address
(bus 1, address 2, port 2) is attached by `organizeHierarchy` as a child
of itself — the produced edge list is exactly the self-edge — refuting
the claimed acyclicity. -/
theorem claim_C1_counterexample :
    organizeHierarchy [((1, 2), { bus := 1, address := 2, port := 2 })] []
      = [((1, 2), (1, 2))] := by decide

/-- C1 (amended): no Record appears in the children list of more than one
parent — each device-map entry is attached at most once by
`organizeHierarchy` and each hint key attaches its Record at most once in
`mergeHierarchy`, provided the map keys are duplicate-free — but the
edges are not guaranteed acyclic: a device whose port number equals its
own address becomes its own child. -/
theorem claim_C1 :
    (∀ (deviceMap : List (DKey × USBDevice)) (rootDevices : List (Nat × DKey)),
      (deviceMap.map Prod.fst).Nodup →
      ∀ c : DKey,
        (organizeHierarchy deviceMap rootDevices).countP (fun e => e.2 = c) ≤ 1) ∧
    (∀ (devices : List USBDevice) (hierarchy : List (DKey × TreeNode)),
      (hierarchy.map Prod.fst).Nodup →
      ∀ c : DKey,
        ((mergeHierarchy devices hierarchy).edges).countP (fun e => e.2 = c) ≤ 1) :=
  ⟨organizeHierarchy_child_once, mergeHierarchy_child_once⟩

/-- C1 witness: on a concrete two-entry device map the receiver is
attached exactly once. -/
theorem claim_C1_witness :
    (organizeHierarchy [((1, 1), recA1), ((1, 2), recA2)] [(1, (1, 1))]).countP
      (fun e => e.2 = (1, 2)) ≤ 1 :=
  claim_C1.1 [((1, 1), recA1), ((1, 2), recA2)] [(1, (1, 1))] (by decide) (1, 2)

/-- C2 counterexample: Scenario A routed through `mergeHierarchy` with an
empty hint set leaves the port-1 receiver unattached (no edges at all;
the returned forest is just the bare root), refuting the claimed
universal port-to-address fallback of "the reconstruction". -/
theorem claim_C2_counterexample :
    0 < recA2.port ∧
    (mergeHierarchy [recA1, recA2] []).edges = [] ∧
    (mergeHierarchy [recA1, recA2] []).roots = [recA1] := by
  refine ⟨by decide, by decide, by decide⟩

/-- C2 (amended): the port-number fallback is the libusb-path rule: in
`organizeHierarchy`, every mapped Record with non-zero port is attached
under the Record at (same bus, address equal to that port) when present,
otherwise under the bus's root hub when present, and a key all of whose
entries have port 0 (as the synthesized address-1 root hubs do) is never
attached as a child; Scenario A holds through `getDevicesViaLibusb`.
`mergeHierarchy`, by contrast, derives edges only from hint nodes: with
no hint edges it attaches nothing. -/
theorem claim_C2 :
    (∀ (deviceMap : List (DKey × USBDevice)) (rootDevices : List (Nat × DKey))
        (k : DKey) (d : USBDevice),
      (k, d) ∈ deviceMap → 0 < d.port →
      (lookupKV deviceMap (d.bus, d.port)).isSome = true →
      ((d.bus, d.port), k) ∈ organizeHierarchy deviceMap rootDevices) ∧
    (∀ (deviceMap : List (DKey × USBDevice)) (rootDevices : List (Nat × DKey))
        (k : DKey) (d : USBDevice) (rk : DKey),
      (k, d) ∈ deviceMap → 0 < d.port →
      lookupKV deviceMap (d.bus, d.port) = none →
      lookupBus rootDevices d.bus = some rk →
      (rk, k) ∈ organizeHierarchy deviceMap rootDevices) ∧
    (∀ (deviceMap : List (DKey × USBDevice)) (rootDevices : List (Nat × DKey)) (c : DKey),
      (∀ d : USBDevice, (c, d) ∈ deviceMap → d.port = 0) →
      ∀ p : DKey, (p, c) ∉ organizeHierarchy deviceMap rootDevices) ∧
    (getDevicesViaLibusb [recA1, recA2]
      = { roots :=
            [{ vendorID := 0x1d6b, productID := 0x0002, vendorName := "Linux Foundation",
               productName := "USB 2.0 Root Hub", bus := 1, address := 1, port := 0,
               speed := "High (480 Mbps)", Class := "Hub", subClass := "00",
               protocol := "00" }],
          edges := [((1, 1), (1, 2))] }) ∧
    (∀ devices : List USBDevice, (mergeHierarchy devices []).edges = []) := by
  refine ⟨?_, ?_, ?_, by decide, ?_⟩
  · intro dm roots k d hmem hp hs
    obtain ⟨v, hv⟩ := Option.isSome_iff_exists.mp hs
    unfold organizeHierarchy
    refine List.mem_filterMap.mpr ⟨(k, d), hmem, ?_⟩
    unfold orgEdge
    rw [if_pos hp, hv]
  · intro dm roots k d rk hmem hp hnone hroot
    unfold organizeHierarchy
    refine List.mem_filterMap.mpr ⟨(k, d), hmem, ?_⟩
    unfold orgEdge
    rw [if_pos hp, hnone, hroot]
  · intro dm roots c hall p hmem
    unfold organizeHierarchy at hmem
    obtain ⟨a, ha, hfa⟩ := List.mem_filterMap.mp hmem
    have hc : a.1 = c := (orgEdge_snd hfa).symm
    have hp0 : a.2.port = 0 := hall a.2 (by rw [← hc]; exact ha)
    unfold orgEdge at hfa
    rw [hp0] at hfa
    simp at hfa
  · intro devices
    rw [mergeHierarchy_edges]
    rfl

/-- C2 witness: on the Scenario A device map the receiver's edge to the
root is present, and the port-0 root key is never a child. -/
theorem claim_C2_witness :
    ((1, 1), (1, 2)) ∈ organizeHierarchy [((1, 1), recA1), ((1, 2), recA2)] [] ∧
    (∀ p : DKey, (p, (1, 1)) ∉ organizeHierarchy [((1, 1), recA1), ((1, 2), recA2)] []) ∧
    (mergeHierarchy [recA1] []).edges = [] :=
  ⟨claim_C2.1 [((1, 1), recA1), ((1, 2), recA2)] [] (1, 2) recA2
      (by decide) (by decide) (by decide),
   claim_C2.2.2.1 [((1, 1), recA1), ((1, 2), recA2)] [] (1, 1)
      (by
        intro d hd
        rcases List.mem_cons.mp hd with h | h
        · have h2 : d = recA1 := congrArg Prod.snd h
          subst h2; rfl
        · rcases List.mem_cons.mp h with h2 | h2
          · have h3 : ((1, 1) : DKey) = (1, 2) := congrArg Prod.fst h2
            exact absurd h3 (by decide)
          · exact absurd h2 (List.not_mem_nil _)),
   claim_C2.2.2.2.2 [recA1]⟩

/-- C6: `mergeHierarchy` run twice on the same flat Record list and the
same hint set (the set given in any two enumeration orders, keys
duplicate-free — Go map iteration order is arbitrary) yields structurally
identical forests: the same enriched records, the same per-bus roots, the
same parent/child edges up to order, and no duplicated children. -/
theorem claim_C6 :
    ∀ (devices : List USBDevice) (h1 h2 : List (DKey × TreeNode)),
      h1.Perm h2 → (h1.map Prod.fst).Nodup →
      (mergeHierarchy devices h1).roots = (mergeHierarchy devices h2).roots ∧
      (mergeHierarchy devices h1).devices = (mergeHierarchy devices h2).devices ∧
      (mergeHierarchy devices h1).edges.Perm (mergeHierarchy devices h2).edges ∧
      (∀ c : DKey,
        ((mergeHierarchy devices h1).edges).countP (fun e => e.2 = c) ≤ 1) := by
  intro devices h1 h2 hp hnd
  have hk : ∀ k, lookupKV h1 k = lookupKV h2 k := lookupKV_perm hp hnd
  have hu : mergeUpdated devices h1 = mergeUpdated devices h2 := by
    unfold mergeUpdated
    refine List.map_congr_left ?_
    intro d _
    unfold updateFromHierarchy
    rw [hk (d.bus, d.address)]
  have hdm : mergeDeviceMap devices h1 = mergeDeviceMap devices h2 := by
    unfold mergeDeviceMap
    rw [hu]
  have hr : mergeRoots devices h1 = mergeRoots devices h2 := by
    unfold mergeRoots
    rw [hu]
  refine ⟨?_, ?_, ?_, fun c => mergeHierarchy_child_once devices h1 hnd c⟩
  · rw [mergeHierarchy_roots, mergeHierarchy_roots, hr]
  · rw [mergeHierarchy_devices, mergeHierarchy_devices, hu]
  · rw [mergeHierarchy_edges, mergeHierarchy_edges, hdm]
    exact hp.filterMap _

/-- C6 witness: two enumeration orders of a concrete two-node hint set
give the same roots and permuted-equal edges on the same record list. -/
theorem claim_C6_witness :
    (mergeHierarchy [recDev1, recDev3]
        [((1, 3), { bus := 1, port := 2, dev := 3, speed := "480M", parent := some (1, 1) }),
         ((1, 1), { bus := 1, port := 1, dev := 1, speed := "", parent := none })]).roots
      = (mergeHierarchy [recDev1, recDev3]
        [((1, 1), { bus := 1, port := 1, dev := 1, speed := "", parent := none }),
         ((1, 3), { bus := 1, port := 2, dev := 3, speed := "480M", parent := some (1, 1) })]).roots ∧
    (mergeHierarchy [recDev1, recDev3]
        [((1, 3), { bus := 1, port := 2, dev := 3, speed := "480M", parent := some (1, 1) }),
         ((1, 1), { bus := 1, port := 1, dev := 1, speed := "", parent := none })]).edges.Perm
      (mergeHierarchy [recDev1, recDev3]
        [((1, 1), { bus := 1, port := 1, dev := 1, speed := "", parent := none }),
         ((1, 3), { bus := 1, port := 2, dev := 3, speed := "480M", parent := some (1, 1) })]).edges :=
  have h := claim_C6 [recDev1, recDev3]
    [((1, 3), { bus := 1, port := 2, dev := 3, speed := "480M", parent := some (1, 1) }),
     ((1, 1), { bus := 1, port := 1, dev := 1, speed := "", parent := none })]
    [((1, 1), { bus := 1, port := 1, dev := 1, speed := "", parent := none }),
     ((1, 3), { bus := 1, port := 2, dev := 3, speed := "480M", parent := some (1, 1) })]
    (List.Perm.swap _ _ _) (by decide)
  ⟨h.1, h.2.2.1⟩

end Usbtree
